import Mathlib

/-!
Verification development for the Messaging Automation Engine of this repository,
covering the Auto-Reply Rule Matcher (class AutoReplyService) and the Broadcast
Queue Processor (class BroadcastService).

Shallow embedding conventions:
* JavaScript strings are Lean `String`; case-insensitive comparison is modelled
  on the underlying character list (`String.data`) with `Char.toLower`, matching
  `toLowerCase` on the ASCII range used by the service.
* JavaScript falsy checks on strings (`!s`, `s || d`) are modelled as tests
  against the empty string; absent/undefined optional fields are `Option`.
* The closed status string sets of broadcasts and recipients are modelled as
  enumerations; all open-ended strings (trigger type, matchType, chatType)
  stay `String` so that the default branches of the source switches are kept.
* `new RegExp(pattern, flags)` plus `regex.test(text)` is modelled by an
  oracle `rc : String → String → Option (String → Bool)`: `none` models a
  pattern/flags pair on which the RegExp constructor throws, and the
  try/catch of the source maps that case to a non-match.
* Wall-clock readings (`new Date()`) are supplied as explicit parameters
  (timestamps as `Nat` ticks, the current time of day as minutes since
  midnight). `Math.random()` values are supplied as an oracle of rationals
  in `[0, 1)`. The `HH:MM` strings of a time-range condition are modelled
  already split into an (hour, minute) pair, as produced by the
  `split(":").map(Number)` in the source.
* The persistence layer (`_saveRules` / `_saveBroadcasts`) rewrites the whole
  in-memory record set and never changes it, so it is not modelled; record
  ids (uuid v4) and the `matchCount`/`lastMatchedAt` bookkeeping fields are
  omitted because no claim mentions them.
-/

/-! ## String helpers (kernel-computable models of the JS string methods) -/

/-- Model of `s.toLowerCase()` as a character list. -/
def lowerData (s : String) : List Char :=
  s.data.map Char.toLower

/-- Model of `haystack.includes(needle)` on character lists. -/
def listIncludes (haystack needle : List Char) : Bool :=
  match haystack with
  | [] => needle.isEmpty
  | _ :: t => needle.isPrefixOf haystack || listIncludes t needle

/-- Model of `s.endsWith(sfx)`. -/
def strEndsWith (s sfx : String) : Bool :=
  sfx.data.isSuffixOf s.data

/-- Model of `chatId.replace(sfx, "")` for the jid suffixes stripped by the
source, which only ever occur as suffixes of a jid. -/
def stripEnd (s sfx : String) : String :=
  if sfx.data.isSuffixOf s.data then ⟨s.data.take (s.data.length - sfx.data.length)⟩ else s

/-- `chatId.replace("@s.whatsapp.net", "").replace("@g.us", "")` from the source. -/
def senderNumber (chatId : String) : String :=
  stripEnd (stripEnd chatId "@s.whatsapp.net") "@g.us"

/-! ## Auto-Reply data model (src AutoReplyService) -/

/-- The `trigger` object of an auto-reply rule. -/
structure RuleTrigger where
  type : String
  keywords : List String
  matchType : String
  pattern : String
  flags : String
deriving DecidableEq

/-- The `conditions.timeRange` object; `start`/`end` are kept as the
(hour, minute) pairs the source obtains by splitting the `HH:MM` strings. -/
structure TimeRange where
  enabled : Bool
  startH : Nat
  startM : Nat
  endH : Nat
  endM : Nat
deriving DecidableEq

/-- The `conditions` object of an auto-reply rule. -/
structure RuleConditions where
  chatType : String
  timeRange : TimeRange
  excludeContacts : List String
deriving DecidableEq

/-- The `action` object of an auto-reply rule. -/
structure RuleAction where
  type : String
  message : String
  delay : Nat
deriving DecidableEq

/-- An auto-reply rule record. -/
structure Rule where
  name : String
  sessionId : String
  trigger : RuleTrigger
  conditions : RuleConditions
  action : RuleAction
  priority : Int
  enabled : Bool
deriving DecidableEq

/-- The fields of a Baileys message object read by the service: the key flags
and the text-bearing payload alternatives probed by `_extractMessageText`. -/
structure WAMessage where
  fromMe : Bool
  remoteJid : String
  pushName : String
  conversation : Option String
  extendedText : Option String
  imageCaption : Option String
  videoCaption : Option String
  documentCaption : Option String
deriving DecidableEq

/-- The reply action object returned by `processMessage` on a match. -/
structure ReplyAction where
  ruleName : String
  chatId : String
  message : String
  delay : Nat
  actionType : String
deriving DecidableEq

/-- JS truthiness filter for an optional string field: an absent field and the
empty string are both falsy in the `||` chains of the source. -/
def jsStr (o : Option String) : Option String :=
  match o with
  | some s => if s = "" then none else some s
  | none => none

/-- `_extractMessageText`: first truthy of conversation, extended text and the
three media captions, else null. -/
def AutoReplyService.extractMessageText (m : WAMessage) : Option String :=
  (jsStr m.conversation).orElse fun _ =>
    (jsStr m.extendedText).orElse fun _ =>
      (jsStr m.imageCaption).orElse fun _ =>
        (jsStr m.videoCaption).orElse fun _ => jsStr m.documentCaption

/-- One keyword comparison of the `keyword` trigger, after both sides are
lowered: the switch on `matchType` with `contains` as the default branch. -/
def keywordMatches (matchType : String) (text kw : List Char) : Bool :=
  if matchType = "exact" then text = kw
  else if matchType = "startsWith" then kw.isPrefixOf text
  else if matchType = "endsWith" then kw.isSuffixOf text
  else listIncludes text kw

/-- `_matchesTrigger`: the switch on `trigger.type`. `rc` is the RegExp
oracle described in the file header; the `first_message` case and the default
case of the source both return false. -/
def AutoReplyService.matchesTrigger (rc : String → String → Option (String → Bool))
    (trigger : RuleTrigger) (messageText : String) : Bool :=
  let text := lowerData messageText
  if trigger.type = "all" then true
  else if trigger.type = "keyword" then
    let matchType := if trigger.matchType = "" then "contains" else trigger.matchType
    trigger.keywords.any fun keyword => keywordMatches matchType text (lowerData keyword)
  else if trigger.type = "regex" then
    match rc trigger.pattern (if trigger.flags = "" then "i" else trigger.flags) with
    | some tester => tester messageText
    | none => false
  else false

/-- `_matchesRule`: the three condition gates (chat type, time range, excluded
contacts), each short-circuiting to a non-match, then the trigger check.
`nowMinutes` is `hours * 60 + minutes` of the current local time. -/
def AutoReplyService.matchesRule (rc : String → String → Option (String → Bool))
    (nowMinutes : Nat) (rule : Rule) (messageText chatId : String) (isGroup : Bool) : Bool :=
  if rule.conditions.chatType = "personal" && isGroup then false
  else if rule.conditions.chatType = "group" && !isGroup then false
  else if rule.conditions.timeRange.enabled &&
      (decide (nowMinutes < rule.conditions.timeRange.startH * 60 + rule.conditions.timeRange.startM) ||
       decide (nowMinutes > rule.conditions.timeRange.endH * 60 + rule.conditions.timeRange.endM)) then false
  else if decide (0 < rule.conditions.excludeContacts.length) &&
      rule.conditions.excludeContacts.contains (senderNumber chatId) then false
  else AutoReplyService.matchesTrigger rc rule.trigger messageText

/-- Stable insertion of a rule into a priority-descending list, placing it
after every already-sorted rule of greater or equal priority; folding it over
a rule list reproduces the stable `sort((a, b) => b.priority - a.priority)`. -/
def insertByPriority (r : Rule) : List Rule → List Rule
  | [] => [r]
  | x :: xs => if r.priority ≤ x.priority then x :: insertByPriority r xs else r :: x :: xs

/-- The stable priority-descending sort applied to the applicable rules. -/
def sortByPriorityDesc (rs : List Rule) : List Rule :=
  rs.foldl (fun acc r => insertByPriority r acc) []

/-- The filter chain of `processMessage`: enabled rules whose `sessionId` is
falsy, equal to the inbound session, or the wildcard, sorted by priority. -/
def AutoReplyService.applicableRules (rules : List Rule) (sessionId : String) : List Rule :=
  sortByPriorityDesc
    ((rules.filter fun r => r.enabled).filter fun r =>
      r.sessionId = "" || r.sessionId = sessionId || r.sessionId = "*")

/-- `_processReplyTemplate`: global substitution of the four placeholders. -/
def AutoReplyService.processReplyTemplate (template : String) (m : WAMessage)
    (timeStr dateStr : String) : String :=
  let pushName := if m.pushName = "" then "User" else m.pushName
  ((((template.replace "{name}" pushName).replace "{sender}"
      (senderNumber m.remoteJid)).replace "{time}" timeStr).replace "{date}" dateStr)

/-- The reply action object built by `processMessage` for a matched rule
(`rule.action.delay || 1000` keeps a zero delay falsy). -/
def mkReplyAction (rule : Rule) (m : WAMessage) (timeStr dateStr : String) : ReplyAction :=
  { ruleName := rule.name
    chatId := m.remoteJid
    message := AutoReplyService.processReplyTemplate rule.action.message m timeStr dateStr
    delay := if rule.action.delay = 0 then 1000 else rule.action.delay
    actionType := rule.action.type }

/-- `processMessage`: skip self/status messages, extract the text, then return
the action of the first applicable rule (in priority-descending order) whose
conditions and trigger pass, or null. The rule list stands for the insertion
order of the `rules` map values. -/
def AutoReplyService.processMessage (rc : String → String → Option (String → Bool))
    (nowMinutes : Nat) (timeStr dateStr : String) (sessionId : String)
    (rules : List Rule) (m : WAMessage) : Option ReplyAction :=
  if m.fromMe || m.remoteJid = "status@broadcast" then none
  else
    match AutoReplyService.extractMessageText m with
    | none => none
    | some messageText =>
      let chatId := m.remoteJid
      let isGroup := strEndsWith chatId "@g.us"
      match (AutoReplyService.applicableRules rules sessionId).find? fun r =>
          AutoReplyService.matchesRule rc nowMinutes r messageText chatId isGroup with
      | none => none
      | some rule => some (mkReplyAction rule m timeStr dateStr)

/-! ## Broadcast data model (src BroadcastService) -/

/-- Per-recipient status strings of the source, as an enumeration. -/
inductive RecStatus where
  | pending
  | sent
  | failed
deriving DecidableEq

/-- One entry of the `recipients` array of a campaign. -/
structure BRecipient where
  chatId : String
  status : RecStatus
  sentAt : Option Nat
  error : Option String
deriving DecidableEq

/-- Campaign status strings of the source, as an enumeration. -/
inductive BStatus where
  | created
  | running
  | paused
  | completed
  | cancelled
deriving DecidableEq

/-- The `stats` object of a campaign. -/
structure BStats where
  total : Nat
  sent : Nat
  failed : Nat
  pending : Nat
deriving DecidableEq

/-- A broadcast campaign record (uuid and `scheduledAt` omitted: no claim
reads them). -/
structure Broadcast where
  name : String
  sessionId : String
  message : String
  mediaUrl : Option String
  mediaType : Option String
  caption : Option String
  recipients : List BRecipient
  status : BStatus
  stats : BStats
  createdAt : Nat
  startedAt : Option Nat
  completedAt : Option Nat
  currentIndex : Nat
deriving DecidableEq

/-- The rate limiting configuration of the service constructor (`maxPerHour`
is declared there but never read by the source, so it is left out). -/
structure BroadcastConfig where
  minDelay : Nat
  maxDelay : Nat
  batchSize : Nat
  batchDelay : Nat
deriving DecidableEq

/-- The constructor defaults: 3 to 8 seconds between messages, batches of 10,
30 second batch pause. -/
def defaultBroadcastConfig : BroadcastConfig :=
  { minDelay := 3000, maxDelay := 8000, batchSize := 10, batchDelay := 30000 }

/-- `_getRandomDelay`: `Math.floor(Math.random() * (maxDelay - minDelay + 1))
+ minDelay`, with the `Math.random()` float supplied as a rational `q`. -/
def BroadcastService.getRandomDelay (cfg : BroadcastConfig) (q : ℚ) : ℤ :=
  ⌊q * ((cfg.maxDelay : ℚ) - (cfg.minDelay : ℚ) + 1)⌋ + (cfg.minDelay : ℤ)

/-- The result shape `{success, message, data?}` of the mutating operations. -/
structure BResult (α : Type) where
  success : Bool
  message : String
  data : Option α
deriving DecidableEq

/-- The options object accepted by `BroadcastService.create`. -/
structure CreateOptions where
  name : String
  sessionId : String
  recipients : List String
  message : String
  mediaUrl : Option String
  mediaType : Option String
  caption : Option String
deriving DecidableEq

/-- `BroadcastService.create`: the two validation gates, then the fresh
campaign record. In the typed model `recipients` is always an array, so of
the `!recipients` / `!Array.isArray(recipients)` / `length === 0` checks of
the source only the emptiness test can fire. -/
def BroadcastService.create (opts : CreateOptions) (now : Nat) : BResult Broadcast :=
  if opts.name = "" || opts.sessionId = "" || opts.message = "" then
    { success := false
      message := "Missing required fields: name, sessionId, recipients, message"
      data := none }
  else if opts.recipients.length = 0 then
    { success := false, message := "Recipients must be a non-empty array", data := none }
  else
    { success := true
      message := "Broadcast created"
      data := some
        { name := opts.name
          sessionId := opts.sessionId
          message := opts.message
          mediaUrl := opts.mediaUrl
          mediaType := opts.mediaType
          caption := opts.caption
          recipients := opts.recipients.map fun r =>
            { chatId := r, status := RecStatus.pending, sentAt := none, error := none }
          status := BStatus.created
          stats :=
            { total := opts.recipients.length
              sent := 0
              failed := 0
              pending := opts.recipients.length }
          createdAt := now
          startedAt := none
          completedAt := none
          currentIndex := 0 } }

/-- `create` at the level of the `broadcasts` map: the record set gains the
new campaign exactly when validation passes. -/
def BroadcastService.createIn (store : List Broadcast) (opts : CreateOptions)
    (now : Nat) : List Broadcast × BResult Broadcast :=
  let res := BroadcastService.create opts now
  match res.data with
  | some b => (store ++ [b], res)
  | none => (store, res)

/-- The slice of a session handle consumed by the service. -/
structure SessionHandle where
  connectionStatus : String
deriving DecidableEq

/-- `BroadcastService.start` on an existing campaign: the four early-return
gates in source order (already running, already completed, manager missing,
session missing or disconnected), then the status/startedAt mutation.
Returns the operation result together with the (possibly updated) record. -/
def BroadcastService.start (b : Broadcast) (managerReady : Bool)
    (sess : Option SessionHandle) (now : Nat) : BResult Broadcast × Broadcast :=
  if b.status = BStatus.running then
    ({ success := false, message := "Broadcast is already running", data := none }, b)
  else if b.status = BStatus.completed then
    ({ success := false, message := "Broadcast is already completed", data := none }, b)
  else if managerReady = false then
    ({ success := false, message := "WhatsApp Manager not initialized", data := none }, b)
  else
    match sess with
    | none => ({ success := false, message := "Session not found", data := none }, b)
    | some s =>
      if s.connectionStatus ≠ "connected" then
        ({ success := false, message := "Session is not connected", data := none }, b)
      else
        let b' := { b with status := BStatus.running, startedAt := some (b.startedAt.getD now) }
        ({ success := true, message := "Broadcast started", data := some b' }, b')

/-- `BroadcastService.pause`: only a running campaign can be paused. -/
def BroadcastService.pause (b : Broadcast) : BResult Broadcast × Broadcast :=
  if b.status ≠ BStatus.running then
    ({ success := false, message := "Broadcast is not running", data := none }, b)
  else
    let b' := { b with status := BStatus.paused }
    ({ success := true, message := "Broadcast paused", data := some b' }, b')

/-- `BroadcastService.cancel`: rejected only once completed. -/
def BroadcastService.cancel (b : Broadcast) : BResult Broadcast × Broadcast :=
  if b.status = BStatus.completed then
    ({ success := false, message := "Cannot cancel completed broadcast", data := none }, b)
  else
    let b' := { b with status := BStatus.cancelled }
    ({ success := true, message := "Broadcast cancelled", data := some b' }, b')

/-! ## The queue processing loop (src _processQueue) -/

/-- One wait of the rate limiter: the fixed inter-batch pause or the
randomized inter-message delay. -/
inductive DelayEvent where
  | batchPause (ms : Nat)
  | randomDelay (ms : ℤ)
deriving DecidableEq

/-- The running state of one `_processQueue` invocation: the campaign record,
the `messagesInBatch` counter, and two observation logs — the recipient
indices at which a send was attempted and the waits performed. -/
structure QState where
  b : Broadcast
  messagesInBatch : Nat
  attempts : List Nat
  delays : List DelayEvent
deriving DecidableEq

/-- The while loop of `_processQueue`. `fuel` bounds the number of loop
iterations (each iteration advances `currentIndex` by one, so
`recipients.length - currentIndex` iterations always suffice). The session
gateway is modelled by oracles indexed by the attempt counter: `sendOk k` is
`result.success` of attempt `k` (covering the text, image and document send
paths, which the source treats identically), `sendErr k` the failure reason,
`sentTime k` the success timestamp, and `rand k` the `Math.random()` draw
used after attempt `k` when no batch pause is due. -/
def BroadcastService.runLoop (cfg : BroadcastConfig) (sendOk : Nat → Bool)
    (sendErr : Nat → String) (sentTime : Nat → Nat) (rand : Nat → ℚ) :
    Nat → QState → QState
  | 0, st => st
  | fuel + 1, st =>
    let b := st.b
    if h1 : b.currentIndex < b.recipients.length then
      if b.status = BStatus.running then
        let r := b.recipients.get ⟨b.currentIndex, h1⟩
        if r.status ≠ RecStatus.pending then
          BroadcastService.runLoop cfg sendOk sendErr sentTime rand fuel
            { st with b := { b with currentIndex := b.currentIndex + 1 } }
        else
          let k := st.attempts.length
          let b' :=
            if sendOk k then
              { b with
                recipients := b.recipients.set b.currentIndex
                  { r with status := RecStatus.sent, sentAt := some (sentTime k) }
                stats := { b.stats with sent := b.stats.sent + 1, pending := b.stats.pending - 1 }
                currentIndex := b.currentIndex + 1 }
            else
              { b with
                recipients := b.recipients.set b.currentIndex
                  { r with status := RecStatus.failed, error := some (sendErr k) }
                stats := { b.stats with failed := b.stats.failed + 1, pending := b.stats.pending - 1 }
                currentIndex := b.currentIndex + 1 }
          if st.messagesInBatch + 1 ≥ cfg.batchSize then
            BroadcastService.runLoop cfg sendOk sendErr sentTime rand fuel
              { b := b'
                messagesInBatch := 0
                attempts := st.attempts ++ [b.currentIndex]
                delays := st.delays ++ [DelayEvent.batchPause cfg.batchDelay] }
          else
            BroadcastService.runLoop cfg sendOk sendErr sentTime rand fuel
              { b := b'
                messagesInBatch := st.messagesInBatch + 1
                attempts := st.attempts ++ [b.currentIndex]
                delays := st.delays ++ [DelayEvent.randomDelay (BroadcastService.getRandomDelay cfg (rand k))] }
      else st
    else st

/-- `_processQueue` around the loop: the initial running/session gates (a
missing or disconnected session pauses the campaign), the loop itself, and
the final completion check once the cursor has exhausted the list. Returns
the final record together with the attempt and wait logs. -/
def BroadcastService.processQueue (cfg : BroadcastConfig) (sendOk : Nat → Bool)
    (sendErr : Nat → String) (sentTime : Nat → Nat) (rand : Nat → ℚ)
    (sess : Option SessionHandle) (doneTime : Nat) (b : Broadcast) :
    Broadcast × List Nat × List DelayEvent :=
  if b.status ≠ BStatus.running then (b, [], [])
  else
    match sess with
    | none => ({ b with status := BStatus.paused }, [], [])
    | some s =>
      if s.connectionStatus ≠ "connected" then ({ b with status := BStatus.paused }, [], [])
      else
        let st := BroadcastService.runLoop cfg sendOk sendErr sentTime rand
          (b.recipients.length - b.currentIndex)
          { b := b, messagesInBatch := 0, attempts := [], delays := [] }
        let bFinal :=
          if st.b.recipients.length ≤ st.b.currentIndex then
            { st.b with status := BStatus.completed, completedAt := some doneTime }
          else st.b
        (bFinal, st.attempts, st.delays)

/-! ## The campaign transition system

Every mutation the source performs on one campaign record, as a step
relation: the `start`, `pause` and `cancel` operations, the pause written by
`_processQueue` when the session is gone, the three per-recipient outcomes of
the loop body (successful send, failed send, skip of a non-pending
recipient), and the final completion write. -/

/-- One source-level mutation of a single campaign record. -/
inductive BStep : Broadcast → Broadcast → Prop where
  | start (b : Broadcast) (now : Nat)
      (h1 : b.status ≠ BStatus.running) (h2 : b.status ≠ BStatus.completed) :
      BStep b { b with status := BStatus.running, startedAt := some (b.startedAt.getD now) }
  | pause (b : Broadcast) (h : b.status = BStatus.running) :
      BStep b { b with status := BStatus.paused }
  | cancel (b : Broadcast) (h : b.status ≠ BStatus.completed) :
      BStep b { b with status := BStatus.cancelled }
  | sendOk (b : Broadcast) (now : Nat) (h : b.status = BStatus.running)
      (hi : b.currentIndex < b.recipients.length)
      (hp : (b.recipients.get ⟨b.currentIndex, hi⟩).status = RecStatus.pending) :
      BStep b { b with
        recipients := b.recipients.set b.currentIndex
          { b.recipients.get ⟨b.currentIndex, hi⟩ with
            status := RecStatus.sent, sentAt := some now }
        stats := { b.stats with sent := b.stats.sent + 1, pending := b.stats.pending - 1 }
        currentIndex := b.currentIndex + 1 }
  | sendFail (b : Broadcast) (reason : String) (h : b.status = BStatus.running)
      (hi : b.currentIndex < b.recipients.length)
      (hp : (b.recipients.get ⟨b.currentIndex, hi⟩).status = RecStatus.pending) :
      BStep b { b with
        recipients := b.recipients.set b.currentIndex
          { b.recipients.get ⟨b.currentIndex, hi⟩ with
            status := RecStatus.failed, error := some reason }
        stats := { b.stats with failed := b.stats.failed + 1, pending := b.stats.pending - 1 }
        currentIndex := b.currentIndex + 1 }
  | skip (b : Broadcast) (h : b.status = BStatus.running)
      (hi : b.currentIndex < b.recipients.length)
      (hp : (b.recipients.get ⟨b.currentIndex, hi⟩).status ≠ RecStatus.pending) :
      BStep b { b with currentIndex := b.currentIndex + 1 }
  | finish (b : Broadcast) (now : Nat)
      (hi : b.recipients.length ≤ b.currentIndex) :
      BStep b { b with status := BStatus.completed, completedAt := some now }

/-- Reachability of one campaign record from another through source-level
mutations. -/
def BReachable : Broadcast → Broadcast → Prop :=
  Relation.ReflTransGen BStep

/-- The priority-descending comparison used by the rule sort. -/
def ruleGE (a b : Rule) : Prop := b.priority ≤ a.priority

/-! ## Derived observation functions used by the loop theorems -/

/-- The indices at and after position `i` whose recipient is still pending:
exactly the positions at which the loop will attempt a send when started
with its cursor at `i`. -/
def pendingIdxFrom (l : List BRecipient) (i : Nat) : List Nat :=
  (List.range' i (l.length - i)).filter fun j =>
    match l[j]? with
    | some r => r.status = RecStatus.pending
    | none => false

/-- The wait sequence emitted by `n` consecutive processed items of the loop,
entered with `messagesInBatch = mib` and attempt counter `k`: after each item
either the inter-batch pause (once the counter reaches `batchSize`, which
also resets it) or a randomized inter-message delay. -/
def rateTrace (cfg : BroadcastConfig) (rand : Nat → ℚ) : Nat → Nat → Nat → List DelayEvent
  | _, _, 0 => []
  | mib, k, n + 1 =>
    if mib + 1 ≥ cfg.batchSize then
      DelayEvent.batchPause cfg.batchDelay :: rateTrace cfg rand 0 (k + 1) n
    else
      DelayEvent.randomDelay (BroadcastService.getRandomDelay cfg (rand k)) ::
        rateTrace cfg rand (mib + 1) (k + 1) n

/-! ## Concrete records used by the witnesses and counterexamples -/

/-- A RegExp oracle on which every pattern fails to compile. -/
def rcNone : String → String → Option (String → Bool) := fun _ _ => none

/-- An always-matching trigger. -/
def trigAll : RuleTrigger :=
  { type := "all", keywords := [], matchType := "contains", pattern := "", flags := "i" }

/-- The keyword trigger of the spec example: `keywords=["price"],
matchType=contains`. -/
def trigPrice : RuleTrigger :=
  { type := "keyword", keywords := ["price"], matchType := "contains", pattern := "", flags := "i" }

/-- A regex trigger whose pattern does not compile (unterminated class). -/
def trigBadRegex : RuleTrigger :=
  { type := "regex", keywords := [], matchType := "contains", pattern := "[", flags := "i" }

/-- Wide-open conditions: any chat type, time range disabled, no exclusions. -/
def condOpen : RuleConditions :=
  { chatType := "all"
    timeRange := { enabled := false, startH := 0, startM := 0, endH := 23, endM := 59 }
    excludeContacts := [] }

/-- Conditions with an overnight time window 22:00 to 06:00 enabled. -/
def condOvernight : RuleConditions :=
  { chatType := "all"
    timeRange := { enabled := true, startH := 22, startM := 0, endH := 6, endM := 0 }
    excludeContacts := [] }

/-- A plain reply action. -/
def actReply (msg : String) : RuleAction :=
  { type := "reply", message := msg, delay := 1000 }

/-- Priority 10 global rule matching everything. -/
def ruleHigh : Rule :=
  { name := "high", sessionId := "*", trigger := trigAll, conditions := condOpen
    action := actReply "high reply", priority := 10, enabled := true }

/-- Priority 5 global rule matching everything. -/
def ruleLow : Rule :=
  { name := "low", sessionId := "*", trigger := trigAll, conditions := condOpen
    action := actReply "low reply", priority := 5, enabled := true }

/-- An enabled rule whose `sessionId` is the empty string: neither the
wildcard nor any concrete inbound session id. -/
def ruleEmptySession : Rule :=
  { name := "empty", sessionId := "", trigger := trigAll, conditions := condOpen
    action := actReply "hi", priority := 0, enabled := true }

/-- An inbound personal text message. -/
def msgHello : WAMessage :=
  { fromMe := false, remoteJid := "628123@s.whatsapp.net", pushName := "Andi"
    conversation := some "hello", extendedText := none, imageCaption := none
    videoCaption := none, documentCaption := none }

/-- A connected session handle. -/
def sessConnected : SessionHandle := { connectionStatus := "connected" }

/-- Creation options for a two-recipient campaign. -/
def optsTwo : CreateOptions :=
  { name := "camp", sessionId := "s1", recipients := ["111@s.whatsapp.net", "222@s.whatsapp.net"]
    message := "hello", mediaUrl := none, mediaType := none, caption := none }

/-- The campaign record `create` builds from `optsTwo` at tick 0. -/
def bTwo : Broadcast :=
  { name := "camp", sessionId := "s1", message := "hello", mediaUrl := none
    mediaType := none, caption := none
    recipients :=
      [ { chatId := "111@s.whatsapp.net", status := RecStatus.pending, sentAt := none, error := none }
      , { chatId := "222@s.whatsapp.net", status := RecStatus.pending, sentAt := none, error := none } ]
    status := BStatus.created
    stats := { total := 2, sent := 0, failed := 0, pending := 2 }
    createdAt := 0, startedAt := none, completedAt := none, currentIndex := 0 }

/-- Creation options with an empty recipient array. -/
def optsNoRecipients : CreateOptions :=
  { name := "camp", sessionId := "s1", recipients := [], message := "hello"
    mediaUrl := none, mediaType := none, caption := none }

/-- A cancelled campaign. -/
def bCancelled : Broadcast := { bTwo with status := BStatus.cancelled }

/-- A completed campaign. -/
def bCompleted : Broadcast := { bTwo with status := BStatus.completed }

/-- Creation options for the five-recipient resume scenario of the spec. -/
def optsFive : CreateOptions :=
  { name := "five", sessionId := "s1", recipients := ["r0", "r1", "r2", "r3", "r4"]
    message := "msg", mediaUrl := none, mediaType := none, caption := none }

/-- The freshly created five-recipient campaign. -/
def bFive : Broadcast :=
  { name := "five", sessionId := "s1", message := "msg", mediaUrl := none
    mediaType := none, caption := none
    recipients :=
      [ { chatId := "r0", status := RecStatus.pending, sentAt := none, error := none }
      , { chatId := "r1", status := RecStatus.pending, sentAt := none, error := none }
      , { chatId := "r2", status := RecStatus.pending, sentAt := none, error := none }
      , { chatId := "r3", status := RecStatus.pending, sentAt := none, error := none }
      , { chatId := "r4", status := RecStatus.pending, sentAt := none, error := none } ]
    status := BStatus.created
    stats := { total := 5, sent := 0, failed := 0, pending := 5 }
    createdAt := 0, startedAt := none, completedAt := none, currentIndex := 0 }

/-- The five-recipient campaign after `start`. -/
def bFiveRunning : Broadcast := (BroadcastService.start bFive true (some sessConnected) 10).2

/-- Two loop iterations of the running five-recipient campaign (both sends
succeed, at ticks 100 and 101). -/
def stAfterTwo : QState :=
  BroadcastService.runLoop defaultBroadcastConfig (fun _ => true) (fun _ => "err")
    (fun k => 100 + k) (fun _ => 0) 2
    { b := bFiveRunning, messagesInBatch := 0, attempts := [], delays := [] }

/-- The campaign paused after those two processed items. -/
def bPausedTwo : Broadcast := (BroadcastService.pause stAfterTwo.b).2

/-- The paused campaign started again (resume). -/
def bResumed : Broadcast := (BroadcastService.start bPausedTwo true (some sessConnected) 20).2

/-- The full resumed queue run (all sends succeed, at ticks 500 and up). -/
def resumeRun : Broadcast × List Nat × List DelayEvent :=
  BroadcastService.processQueue defaultBroadcastConfig (fun _ => true) (fun _ => "err")
    (fun k => 500 + k) (fun _ => 0) (some sessConnected) 999 bResumed

/-! ## The campaign bookkeeping invariant -/

/-- The inductive invariant tying the `stats` counters to the recipient
array and the cursor: totals agree, the counters partition the cursor and
the remainder, and a recipient is pending exactly when the cursor has not
passed it. -/
def BInv (b : Broadcast) : Prop :=
  b.stats.total = b.recipients.length ∧
  b.currentIndex ≤ b.recipients.length ∧
  b.stats.sent + b.stats.failed = b.currentIndex ∧
  b.stats.pending = b.recipients.length - b.currentIndex ∧
  ∀ i (h : i < b.recipients.length),
    ((b.recipients.get ⟨i, h⟩).status = RecStatus.pending ↔ b.currentIndex ≤ i)

theorem BInv_create (opts : CreateOptions) (now : Nat) (b : Broadcast)
    (hc : (BroadcastService.create opts now).data = some b) : BInv b := by
  unfold BroadcastService.create at hc
  split at hc
  · simp at hc
  · split at hc
    · simp at hc
    · simp only [Option.some.injEq] at hc
      subst hc
      refine ⟨by simp, by simp, by simp, by simp, ?_⟩
      intro i h
      simp only [List.get_eq_getElem]
      constructor
      · intro _; exact Nat.zero_le i
      · intro _
        have hlen : i < opts.recipients.length := by simpa using h
        simp [List.getElem_map]

theorem BInv_step (b b' : Broadcast) (hinv : BInv b) (hs : BStep b b') : BInv b' := by
  obtain ⟨ht, hle, hsf, hp, hpos⟩ := hinv
  cases hs with
  | start now h1 h2 => exact ⟨ht, hle, hsf, hp, hpos⟩
  | pause h => exact ⟨ht, hle, hsf, hp, hpos⟩
  | cancel h => exact ⟨ht, hle, hsf, hp, hpos⟩
  | finish now hi => exact ⟨ht, hle, hsf, hp, hpos⟩
  | skip h hi hp2 => exact absurd ((hpos b.currentIndex hi).mpr (Nat.le_refl _)) hp2
  | sendOk now h hi hp2 =>
    refine ⟨?_, ?_, ?_, ?_, ?_⟩
    · show b.stats.total = (b.recipients.set _ _).length
      rw [List.length_set]; exact ht
    · show b.currentIndex + 1 ≤ (b.recipients.set _ _).length
      rw [List.length_set]; omega
    · show b.stats.sent + 1 + b.stats.failed = b.currentIndex + 1
      omega
    · show b.stats.pending - 1 = (b.recipients.set _ _).length - (b.currentIndex + 1)
      rw [List.length_set]; omega
    · intro i hilen
      have hilen2 : i < (b.recipients.set b.currentIndex _).length := hilen
      rw [List.length_set] at hilen2
      show ((b.recipients.set _ _).get ⟨i, hilen⟩).status = RecStatus.pending ↔ b.currentIndex + 1 ≤ i
      simp only [List.get_eq_getElem]
      by_cases hieq : b.currentIndex = i
      · subst hieq
        rw [List.getElem_set_self]
        show RecStatus.sent = RecStatus.pending ↔ _
        constructor
        · intro hcon; cases hcon
        · intro hcon; omega
      · rw [List.getElem_set_ne hieq]
        have h2 := hpos i hilen2
        simp only [List.get_eq_getElem] at h2
        rw [h2]
        omega
  | sendFail reason h hi hp2 =>
    refine ⟨?_, ?_, ?_, ?_, ?_⟩
    · show b.stats.total = (b.recipients.set _ _).length
      rw [List.length_set]; exact ht
    · show b.currentIndex + 1 ≤ (b.recipients.set _ _).length
      rw [List.length_set]; omega
    · show b.stats.sent + (b.stats.failed + 1) = b.currentIndex + 1
      omega
    · show b.stats.pending - 1 = (b.recipients.set _ _).length - (b.currentIndex + 1)
      rw [List.length_set]; omega
    · intro i hilen
      have hilen2 : i < (b.recipients.set b.currentIndex _).length := hilen
      rw [List.length_set] at hilen2
      show ((b.recipients.set _ _).get ⟨i, hilen⟩).status = RecStatus.pending ↔ b.currentIndex + 1 ≤ i
      simp only [List.get_eq_getElem]
      by_cases hieq : b.currentIndex = i
      · subst hieq
        rw [List.getElem_set_self]
        show RecStatus.failed = RecStatus.pending ↔ _
        constructor
        · intro hcon; cases hcon
        · intro hcon; omega
      · rw [List.getElem_set_ne hieq]
        have h2 := hpos i hilen2
        simp only [List.get_eq_getElem] at h2
        rw [h2]
        omega

theorem BInv_reachable (b0 b : Broadcast) (h0 : BInv b0) (hr : BReachable b0 b) : BInv b := by
  induction hr with
  | refl => exact h0
  | tail _ hstep ih => exact BInv_step _ _ ih hstep

/-! ## Claim C1 -/

/-- C1: for every reachable state of a campaign created by `create`,
`stats.sent + stats.failed + stats.pending = stats.total`, and while the
status is `running`, `stats.pending = stats.total - currentIndex`. The
reachable states are the initial record of a successful `create` closed
under every per-record mutation of the source (start, pause, cancel, the
per-recipient send success, send failure and skip steps of the processing
loop, and the completion write). -/
theorem broadcast_stats_conservation (opts : CreateOptions) (now : Nat) (b0 b : Broadcast)
    (hc : (BroadcastService.create opts now).data = some b0)
    (hr : BReachable b0 b) :
    b.stats.sent + b.stats.failed + b.stats.pending = b.stats.total ∧
    (b.status = BStatus.running → b.stats.pending = b.stats.total - b.currentIndex) := by
  obtain ⟨ht, hle, hsf, hp, -⟩ := BInv_reachable b0 b (BInv_create opts now b0 hc) hr
  exact ⟨by omega, fun _ => by omega⟩

/-- Witness for C1 at a concrete input: the two-recipient campaign right
after creation and again after a `start` step. -/
theorem broadcast_stats_conservation_witness :
    (bTwo.stats.sent + bTwo.stats.failed + bTwo.stats.pending = bTwo.stats.total ∧
      (bTwo.status = BStatus.running → bTwo.stats.pending = bTwo.stats.total - bTwo.currentIndex)) ∧
    (({ bTwo with status := BStatus.running, startedAt := some 5 } : Broadcast).stats.pending =
      ({ bTwo with status := BStatus.running, startedAt := some 5 } : Broadcast).stats.total -
        ({ bTwo with status := BStatus.running, startedAt := some 5 } : Broadcast).currentIndex) :=
  ⟨broadcast_stats_conservation optsTwo 0 bTwo bTwo (by decide) Relation.ReflTransGen.refl,
    (broadcast_stats_conservation optsTwo 0 bTwo
      { bTwo with status := BStatus.running, startedAt := some 5 } (by decide)
      (Relation.ReflTransGen.single (BStep.start bTwo 5 (by decide) (by decide)))).2 rfl⟩

/-! ## Claim C2 -/

/-- Counterexample to C2 as stated: a concrete campaign with status
`cancelled` on which `start` succeeds and changes the status to `running`
(the source only rejects `running` and `completed`), so `cancelled` is not
terminal and `start` on a cancelled campaign does change its status. -/
theorem broadcast_cancelled_not_terminal_counterexample :
    bCancelled.status = BStatus.cancelled ∧
    (BroadcastService.start bCancelled true (some sessConnected) 7).1.success = true ∧
    (BroadcastService.start bCancelled true (some sessConnected) 7).2.status = BStatus.running := by
  decide

/-- C2 (amended): once a campaign is `completed` no mutation of the source
changes its status; the `cancelled` status however is not terminal: `start`
on a cancelled campaign whose session is connected succeeds and moves it
back to `running`. -/
theorem broadcast_completed_terminal (b b2 : Broadcast) (hs : BStep b b2)
    (hc : b.status = BStatus.completed) :
    b2.status = BStatus.completed ∧
    (∀ (c : Broadcast) (s : SessionHandle) (now : Nat),
      c.status = BStatus.cancelled → s.connectionStatus = "connected" →
      (BroadcastService.start c true (some s) now).1.success = true ∧
      (BroadcastService.start c true (some s) now).2.status = BStatus.running) := by
  constructor
  · cases hs with
    | start now h1 h2 => exact absurd hc h2
    | pause h => rw [hc] at h; cases h
    | cancel h => exact absurd hc h
    | sendOk now h hi hp => exact hc
    | sendFail reason h hi hp => exact hc
    | skip h hi hp => exact hc
    | finish now hi => rfl
  · intro c s now hcan hconn
    have hnr : c.status ≠ BStatus.running := by rw [hcan]; decide
    have hnc : c.status ≠ BStatus.completed := by rw [hcan]; decide
    simp [BroadcastService.start, hnr, hnc, hconn]

/-- Witness for C2 (amended) at a concrete input: a `cancel` write attempted
on a completed campaign leaves it completed, and the cancelled two-recipient
campaign restarts to `running`. -/
theorem broadcast_completed_terminal_witness :
    ({ bCompleted with currentIndex := 2, status := BStatus.completed, completedAt := some 9 } : Broadcast).status = BStatus.completed ∧
    ((BroadcastService.start bCancelled true (some sessConnected) 7).1.success = true ∧
      (BroadcastService.start bCancelled true (some sessConnected) 7).2.status = BStatus.running) :=
  ⟨(broadcast_completed_terminal { bCompleted with currentIndex := 2 }
      { bCompleted with currentIndex := 2, status := BStatus.completed, completedAt := some 9 }
      (BStep.finish { bCompleted with currentIndex := 2 } 9 (by decide)) (by decide)).1,
    (broadcast_completed_terminal { bCompleted with currentIndex := 2 }
      { bCompleted with currentIndex := 2, status := BStatus.completed, completedAt := some 9 }
      (BStep.finish { bCompleted with currentIndex := 2 } 9 (by decide)) (by decide)).2
      bCancelled sessConnected 7 (by decide) (by decide)⟩

/-! ## Claim C5 -/

/-- C5: `start` returns an unsuccessful result when the campaign is already
`running` or `completed`, or when the target session does not exist or is
not connected, and in every one of these failure cases the campaign record
(all fields) is left unchanged. -/
theorem broadcast_start_failure_no_mutation (b : Broadcast) (managerReady : Bool)
    (sess : Option SessionHandle) (now : Nat)
    (hfail : b.status = BStatus.running ∨ b.status = BStatus.completed ∨ sess = none ∨
      ∃ s, sess = some s ∧ s.connectionStatus ≠ "connected") :
    (BroadcastService.start b managerReady sess now).1.success = false ∧
    (BroadcastService.start b managerReady sess now).2 = b := by
  unfold BroadcastService.start
  split
  · exact ⟨rfl, rfl⟩
  split
  · exact ⟨rfl, rfl⟩
  split
  · exact ⟨rfl, rfl⟩
  split
  · exact ⟨rfl, rfl⟩
  split
  · exact ⟨rfl, rfl⟩
  rename_i hrun hcomp hmgr s heq hconn
  exfalso
  rcases hfail with h | h | h | ⟨s2, hs2, hc2⟩
  · exact hrun h
  · exact hcomp h
  · cases h
  · injection hs2 with hss
    subst hss
    exact hconn hc2

/-- Witness for C5 at concrete inputs: starting an already completed
campaign, and starting a fresh campaign over a disconnected session, both
fail without touching the record. -/
theorem broadcast_start_failure_no_mutation_witness :
    ((BroadcastService.start bCompleted true (some sessConnected) 3).1.success = false ∧
      (BroadcastService.start bCompleted true (some sessConnected) 3).2 = bCompleted) ∧
    ((BroadcastService.start bTwo true (some { connectionStatus := "connecting" }) 3).1.success = false ∧
      (BroadcastService.start bTwo true (some { connectionStatus := "connecting" }) 3).2 = bTwo) :=
  ⟨broadcast_start_failure_no_mutation bCompleted true (some sessConnected) 3
      (Or.inr (Or.inl (by decide))),
    broadcast_start_failure_no_mutation bTwo true (some { connectionStatus := "connecting" }) 3
      (Or.inr (Or.inr (Or.inr ⟨{ connectionStatus := "connecting" }, rfl, by decide⟩)))⟩

/-! ## Claim C10 -/

/-- C10: `create` fails (success = false) and adds no record to the store
when `recipients` is empty (the only way the non-empty-array check can fail
in the typed model), and on success the created record has every recipient
in input order with status `pending` and null `sentAt`/`error`, status
`created`, `currentIndex` 0, and stats `{total: n, sent: 0, failed: 0,
pending: n}` for `n` the number of recipients. -/
theorem broadcast_create_validates_and_initializes :
    (∀ (store : List Broadcast) (opts : CreateOptions) (now : Nat),
      opts.recipients = [] →
        (BroadcastService.createIn store opts now).1 = store ∧
        (BroadcastService.createIn store opts now).2.success = false) ∧
    (∀ (opts : CreateOptions) (now : Nat) (b : Broadcast),
      (BroadcastService.create opts now).data = some b →
        b.recipients = opts.recipients.map (fun r =>
          { chatId := r, status := RecStatus.pending, sentAt := none, error := none }) ∧
        b.status = BStatus.created ∧
        b.currentIndex = 0 ∧
        b.stats = { total := opts.recipients.length, sent := 0, failed := 0,
                    pending := opts.recipients.length }) := by
  constructor
  · intro store opts now h
    unfold BroadcastService.createIn BroadcastService.create
    split
    · exact ⟨rfl, rfl⟩
    · have hlen : opts.recipients.length = 0 := by rw [h]; rfl
      rw [if_pos hlen]
      exact ⟨rfl, rfl⟩
  · intro opts now b hc
    unfold BroadcastService.create at hc
    split at hc
    · simp at hc
    · split at hc
      · simp at hc
      · simp only [Option.some.injEq] at hc
        subst hc
        exact ⟨rfl, rfl, rfl, rfl⟩

/-- Witness for C10 at concrete inputs: the empty-recipients options leave
the store untouched, and the created two-recipient campaign has the
documented initial record. -/
theorem broadcast_create_validates_and_initializes_witness :
    ((BroadcastService.createIn [] optsNoRecipients 0).1 = [] ∧
      (BroadcastService.createIn [] optsNoRecipients 0).2.success = false) ∧
    (bTwo.recipients = optsTwo.recipients.map (fun r =>
        { chatId := r, status := RecStatus.pending, sentAt := none, error := none }) ∧
      bTwo.status = BStatus.created ∧
      bTwo.currentIndex = 0 ∧
      bTwo.stats = { total := optsTwo.recipients.length, sent := 0, failed := 0,
                     pending := optsTwo.recipients.length }) :=
  ⟨broadcast_create_validates_and_initializes.1 [] optsNoRecipients 0 rfl,
    broadcast_create_validates_and_initializes.2 optsTwo 0 bTwo (by decide)⟩

/-! ## Loop lemmas: attempted sends -/

theorem pendingIdxFrom_stop (l : List BRecipient) (i : Nat) (h : l.length ≤ i) :
    pendingIdxFrom l i = [] := by
  unfold pendingIdxFrom
  have h0 : l.length - i = 0 := by omega
  rw [h0]
  rfl

theorem pendingIdxFrom_cons (l : List BRecipient) (i : Nat) (h : i < l.length) :
    pendingIdxFrom l i =
      if (l.get ⟨i, h⟩).status = RecStatus.pending then i :: pendingIdxFrom l (i + 1)
      else pendingIdxFrom l (i + 1) := by
  unfold pendingIdxFrom
  have h1 : l.length - i = (l.length - (i + 1)) + 1 := by omega
  rw [h1, List.range'_succ, List.filter_cons]
  have h2 : l[i]? = some (l.get ⟨i, h⟩) := by
    rw [List.getElem?_eq_getElem h]
    simp [List.get_eq_getElem]
  rw [h2]
  by_cases hp : (l.get ⟨i, h⟩).status = RecStatus.pending
  · have hp2 : l[i].status = RecStatus.pending := hp
    rw [if_pos hp]
    simp [hp2]
  · have hp2 : ¬l[i].status = RecStatus.pending := hp
    rw [if_neg hp]
    simp [hp2]

theorem pendingIdxFrom_set_above (l : List BRecipient) (i : Nat) (r : BRecipient) :
    pendingIdxFrom (l.set i r) (i + 1) = pendingIdxFrom l (i + 1) := by
  unfold pendingIdxFrom
  rw [List.length_set]
  apply List.filter_congr
  intro j hj
  have hij : i ≠ j := by
    have := List.mem_range'_1.mp hj
    omega
  rw [List.getElem?_set_ne hij]

theorem runLoop_attempts (cfg : BroadcastConfig) (sendOk : Nat → Bool) (sendErr : Nat → String)
    (sentTime : Nat → Nat) (rand : Nat → ℚ) :
    ∀ (fuel : Nat) (st : QState), st.b.status = BStatus.running →
      st.b.recipients.length - st.b.currentIndex ≤ fuel →
      (BroadcastService.runLoop cfg sendOk sendErr sentTime rand fuel st).attempts =
        st.attempts ++ pendingIdxFrom st.b.recipients st.b.currentIndex := by
  intro fuel
  induction fuel with
  | zero =>
    intro st hrun hfuel
    rw [pendingIdxFrom_stop _ _ (by omega)]
    simp [BroadcastService.runLoop]
  | succ fuel ih =>
    intro st hrun hfuel
    rw [BroadcastService.runLoop]
    by_cases h1 : st.b.currentIndex < st.b.recipients.length
    · rw [dif_pos h1, if_pos hrun]
      by_cases hskip : (st.b.recipients.get ⟨st.b.currentIndex, h1⟩).status ≠ RecStatus.pending
      · rw [if_pos hskip]
        refine (ih _ ?_ ?_).trans ?_
        · exact hrun
        · show st.b.recipients.length - (st.b.currentIndex + 1) ≤ fuel
          omega
        · show st.attempts ++ pendingIdxFrom st.b.recipients (st.b.currentIndex + 1) =
            st.attempts ++ pendingIdxFrom st.b.recipients st.b.currentIndex
          rw [pendingIdxFrom_cons _ _ h1, if_neg hskip]
      · rw [if_neg hskip]
        have hp : (st.b.recipients.get ⟨st.b.currentIndex, h1⟩).status = RecStatus.pending :=
          not_not.mp hskip
        by_cases hok : sendOk st.attempts.length = true
        · simp only [hok, if_true]
          by_cases hbatch : st.messagesInBatch + 1 ≥ cfg.batchSize
          · rw [if_pos hbatch]
            refine (ih _ ?_ ?_).trans ?_
            · exact hrun
            · show (st.b.recipients.set st.b.currentIndex _).length -
                (st.b.currentIndex + 1) ≤ fuel
              rw [List.length_set]; omega
            · show (st.attempts ++ [st.b.currentIndex]) ++
                pendingIdxFrom (st.b.recipients.set st.b.currentIndex _)
                  (st.b.currentIndex + 1) =
                st.attempts ++ pendingIdxFrom st.b.recipients st.b.currentIndex
              rw [pendingIdxFrom_set_above, pendingIdxFrom_cons _ _ h1, if_pos hp]
              simp
          · rw [if_neg hbatch]
            refine (ih _ ?_ ?_).trans ?_
            · exact hrun
            · show (st.b.recipients.set st.b.currentIndex _).length -
                (st.b.currentIndex + 1) ≤ fuel
              rw [List.length_set]; omega
            · show (st.attempts ++ [st.b.currentIndex]) ++
                pendingIdxFrom (st.b.recipients.set st.b.currentIndex _)
                  (st.b.currentIndex + 1) =
                st.attempts ++ pendingIdxFrom st.b.recipients st.b.currentIndex
              rw [pendingIdxFrom_set_above, pendingIdxFrom_cons _ _ h1, if_pos hp]
              simp
        · simp only [hok, if_false]
          by_cases hbatch : st.messagesInBatch + 1 ≥ cfg.batchSize
          · rw [if_pos hbatch]
            refine (ih _ ?_ ?_).trans ?_
            · exact hrun
            · show (st.b.recipients.set st.b.currentIndex _).length -
                (st.b.currentIndex + 1) ≤ fuel
              rw [List.length_set]; omega
            · show (st.attempts ++ [st.b.currentIndex]) ++
                pendingIdxFrom (st.b.recipients.set st.b.currentIndex _)
                  (st.b.currentIndex + 1) =
                st.attempts ++ pendingIdxFrom st.b.recipients st.b.currentIndex
              rw [pendingIdxFrom_set_above, pendingIdxFrom_cons _ _ h1, if_pos hp]
              simp
          · rw [if_neg hbatch]
            refine (ih _ ?_ ?_).trans ?_
            · exact hrun
            · show (st.b.recipients.set st.b.currentIndex _).length -
                (st.b.currentIndex + 1) ≤ fuel
              rw [List.length_set]; omega
            · show (st.attempts ++ [st.b.currentIndex]) ++
                pendingIdxFrom (st.b.recipients.set st.b.currentIndex _)
                  (st.b.currentIndex + 1) =
                st.attempts ++ pendingIdxFrom st.b.recipients st.b.currentIndex
              rw [pendingIdxFrom_set_above, pendingIdxFrom_cons _ _ h1, if_pos hp]
              simp
    · rw [dif_neg h1]
      rw [pendingIdxFrom_stop _ _ (by omega)]
      simp

/-! ## Loop lemmas: rate limiting, and claims C4 and C8 -/

/-- The rate-limit trace always has one wait per processed item. -/
theorem rateTrace_length (cfg : BroadcastConfig) (rand : Nat → ℚ) :
    ∀ (n mib k : Nat), (rateTrace cfg rand mib k n).length = n := by
  intro n
  induction n with
  | zero => intro mib k; rfl
  | succ n ih =>
    intro mib k
    rw [rateTrace]
    by_cases h : mib + 1 ≥ cfg.batchSize
    · rw [if_pos h]
      simp [ih]
    · rw [if_neg h]
      simp [ih]

/-- Position `i` of the rate-limit trace entered with in-batch counter `mib`
is the inter-batch pause exactly when `mib + i + 1` is a multiple of
`batchSize`, and otherwise the randomized delay drawn for that attempt. -/
theorem rateTrace_get (cfg : BroadcastConfig) (rand : Nat → ℚ) :
    ∀ (n mib k i : Nat), mib < cfg.batchSize → i < n →
      (rateTrace cfg rand mib k n)[i]? =
        some (if (mib + i + 1) % cfg.batchSize = 0 then DelayEvent.batchPause cfg.batchDelay
          else DelayEvent.randomDelay (BroadcastService.getRandomDelay cfg (rand (k + i)))) := by
  intro n
  induction n with
  | zero => intro mib k i hmib hi; omega
  | succ n ih =>
    intro mib k i hmib hi
    by_cases hb : mib + 1 ≥ cfg.batchSize
    · have hbe : mib + 1 = cfg.batchSize := by omega
      rw [rateTrace, if_pos hb]
      cases i with
      | zero =>
        have hc : (mib + 0 + 1) % cfg.batchSize = 0 := by
          have h3 : mib + 0 + 1 = cfg.batchSize := by omega
          rw [h3, Nat.mod_self]
        rw [if_pos hc]
        exact List.getElem?_cons_zero
      | succ j =>
        rw [List.getElem?_cons_succ, ih 0 (k + 1) j (by omega) (by omega)]
        have e1 : (0 + j + 1) % cfg.batchSize = (mib + (j + 1) + 1) % cfg.batchSize := by
          have h3 : mib + (j + 1) + 1 = cfg.batchSize + (j + 1) := by omega
          have h4 : 0 + j + 1 = j + 1 := by omega
          rw [h3, Nat.add_mod_left, h4]
        have e2 : k + 1 + j = k + (j + 1) := by omega
        rw [e1, e2]
    · rw [rateTrace, if_neg hb]
      cases i with
      | zero =>
        have hc : ¬(mib + 0 + 1) % cfg.batchSize = 0 := by
          have h3 : (mib + 0 + 1) % cfg.batchSize = mib + 0 + 1 :=
            Nat.mod_eq_of_lt (by omega)
          omega
        rw [if_neg hc]
        have e2 : k + 0 = k := by omega
        rw [e2]
        exact List.getElem?_cons_zero
      | succ j =>
        rw [List.getElem?_cons_succ, ih (mib + 1) (k + 1) j (by omega) (by omega)]
        have e1 : (mib + 1 + j + 1) % cfg.batchSize = (mib + (j + 1) + 1) % cfg.batchSize := by
          have h3 : mib + 1 + j + 1 = mib + (j + 1) + 1 := by omega
          rw [h3]
        have e2 : k + 1 + j = k + (j + 1) := by omega
        rw [e1, e2]

/-- On an all-pending tail the loop emits exactly the rate-limit trace. -/
theorem runLoop_delays (cfg : BroadcastConfig) (sendOk : Nat → Bool) (sendErr : Nat → String)
    (sentTime : Nat → Nat) (rand : Nat → ℚ) :
    ∀ (n : Nat) (st : QState), st.b.status = BStatus.running →
      n = st.b.recipients.length - st.b.currentIndex →
      (∀ (j : Nat) (hj : j < st.b.recipients.length), st.b.currentIndex ≤ j →
        (st.b.recipients.get ⟨j, hj⟩).status = RecStatus.pending) →
      (BroadcastService.runLoop cfg sendOk sendErr sentTime rand n st).delays =
        st.delays ++ rateTrace cfg rand st.messagesInBatch st.attempts.length n := by
  intro n
  induction n with
  | zero =>
    intro st hrun hn hall
    simp [BroadcastService.runLoop, rateTrace]
  | succ n ih =>
    intro st hrun hn hall
    have h1 : st.b.currentIndex < st.b.recipients.length := by omega
    have hp : (st.b.recipients.get ⟨st.b.currentIndex, h1⟩).status = RecStatus.pending :=
      hall st.b.currentIndex h1 (Nat.le_refl _)
    rw [BroadcastService.runLoop, dif_pos h1, if_pos hrun, if_neg (not_not_intro hp)]
    have hallSet : ∀ (r : BRecipient) (j : Nat)
        (hj : j < (st.b.recipients.set st.b.currentIndex r).length),
        st.b.currentIndex + 1 ≤ j →
        ((st.b.recipients.set st.b.currentIndex r).get ⟨j, hj⟩).status = RecStatus.pending := by
      intro r j hj hij
      have hj2 : j < st.b.recipients.length := by
        rw [List.length_set] at hj
        exact hj
      simp only [List.get_eq_getElem]
      rw [List.getElem_set_ne (by omega)]
      have := hall j hj2 (by omega)
      simpa [List.get_eq_getElem] using this
    by_cases hok : sendOk st.attempts.length = true
    · simp only [hok, if_true]
      by_cases hbatch : st.messagesInBatch + 1 ≥ cfg.batchSize
      · rw [if_pos hbatch]
        refine (ih _ ?_ ?_ ?_).trans ?_
        · exact hrun
        · show n = (st.b.recipients.set st.b.currentIndex _).length - (st.b.currentIndex + 1)
          rw [List.length_set]; omega
        · exact hallSet _
        · show (st.delays ++ [DelayEvent.batchPause cfg.batchDelay]) ++
            rateTrace cfg rand 0 (st.attempts ++ [st.b.currentIndex]).length n =
            st.delays ++ rateTrace cfg rand st.messagesInBatch st.attempts.length (n + 1)
          rw [rateTrace, if_pos hbatch, List.length_append]
          simp
      · rw [if_neg hbatch]
        refine (ih _ ?_ ?_ ?_).trans ?_
        · exact hrun
        · show n = (st.b.recipients.set st.b.currentIndex _).length - (st.b.currentIndex + 1)
          rw [List.length_set]; omega
        · exact hallSet _
        · show (st.delays ++
              [DelayEvent.randomDelay (BroadcastService.getRandomDelay cfg (rand st.attempts.length))]) ++
            rateTrace cfg rand (st.messagesInBatch + 1) (st.attempts ++ [st.b.currentIndex]).length n =
            st.delays ++ rateTrace cfg rand st.messagesInBatch st.attempts.length (n + 1)
          rw [rateTrace, if_neg hbatch, List.length_append]
          simp
    · simp only [hok, if_false]
      by_cases hbatch : st.messagesInBatch + 1 ≥ cfg.batchSize
      · rw [if_pos hbatch]
        refine (ih _ ?_ ?_ ?_).trans ?_
        · exact hrun
        · show n = (st.b.recipients.set st.b.currentIndex _).length - (st.b.currentIndex + 1)
          rw [List.length_set]; omega
        · exact hallSet _
        · show (st.delays ++ [DelayEvent.batchPause cfg.batchDelay]) ++
            rateTrace cfg rand 0 (st.attempts ++ [st.b.currentIndex]).length n =
            st.delays ++ rateTrace cfg rand st.messagesInBatch st.attempts.length (n + 1)
          rw [rateTrace, if_pos hbatch, List.length_append]
          simp
      · rw [if_neg hbatch]
        refine (ih _ ?_ ?_ ?_).trans ?_
        · exact hrun
        · show n = (st.b.recipients.set st.b.currentIndex _).length - (st.b.currentIndex + 1)
          rw [List.length_set]; omega
        · exact hallSet _
        · show (st.delays ++
              [DelayEvent.randomDelay (BroadcastService.getRandomDelay cfg (rand st.attempts.length))]) ++
            rateTrace cfg rand (st.messagesInBatch + 1) (st.attempts ++ [st.b.currentIndex]).length n =
            st.delays ++ rateTrace cfg rand st.messagesInBatch st.attempts.length (n + 1)
          rw [rateTrace, if_neg hbatch, List.length_append]
          simp

/-- Membership in `pendingIdxFrom`: the positions at or past the cursor
whose recipient is still pending. -/
theorem pendingIdxFrom_mem (l : List BRecipient) (i j : Nat) :
    j ∈ pendingIdxFrom l i ↔
      i ≤ j ∧ ∃ hj : j < l.length, (l.get ⟨j, hj⟩).status = RecStatus.pending := by
  unfold pendingIdxFrom
  rw [List.mem_filter, List.mem_range'_1]
  constructor
  · rintro ⟨⟨hij, hlt⟩, hp⟩
    have hj : j < l.length := by omega
    refine ⟨hij, hj, ?_⟩
    rw [List.getElem?_eq_getElem hj] at hp
    simpa [List.get_eq_getElem] using hp
  · rintro ⟨hij, hj, hp⟩
    refine ⟨⟨hij, by omega⟩, ?_⟩
    rw [List.getElem?_eq_getElem hj]
    simpa [List.get_eq_getElem] using hp

/-- `pendingIdxFrom` lists each position at most once. -/
theorem pendingIdxFrom_nodup (l : List BRecipient) (i : Nat) :
    (pendingIdxFrom l i).Nodup :=
  List.Nodup.filter _ (List.nodup_range' _ _)

/-- C4: a queue run on a running campaign resumes at the persisted
`currentIndex`: the send attempts are exactly the positions at or after the
cursor whose recipient is still `pending`, in order and each exactly once
(`Nodup` plus the membership characterization); recipients at or after the
cursor that are not pending are skipped with no attempt, and positions
before the cursor are never attempted. Concretely, the five-recipient
campaign paused after 2 processed items and started again performs exactly
the 3 attempts [2, 3, 4], and the first two recipients keep their original
`sentAt` ticks (100 and 101) — no duplicate sends. -/
theorem broadcast_resume_sends_pending_once :
    (∀ (cfg : BroadcastConfig) (sendOk : Nat → Bool) (sendErr : Nat → String)
        (sentTime : Nat → Nat) (rand : Nat → ℚ) (doneTime : Nat) (b : Broadcast),
      b.status = BStatus.running →
      (BroadcastService.processQueue cfg sendOk sendErr sentTime rand
          (some sessConnected) doneTime b).2.1 =
        pendingIdxFrom b.recipients b.currentIndex ∧
      (BroadcastService.processQueue cfg sendOk sendErr sentTime rand
          (some sessConnected) doneTime b).2.1.Nodup ∧
      (∀ j : Nat, j ∈ (BroadcastService.processQueue cfg sendOk sendErr sentTime rand
          (some sessConnected) doneTime b).2.1 ↔
        b.currentIndex ≤ j ∧
          ∃ hj : j < b.recipients.length,
            (b.recipients.get ⟨j, hj⟩).status = RecStatus.pending)) ∧
    (bResumed.currentIndex = 2 ∧
      bResumed.status = BStatus.running ∧
      resumeRun.2.1 = [2, 3, 4] ∧
      resumeRun.1.recipients.map (fun r => r.sentAt) =
        [some 100, some 101, some 500, some 501, some 502] ∧
      resumeRun.1.recipients.map (fun r => r.status) =
        [RecStatus.sent, RecStatus.sent, RecStatus.sent, RecStatus.sent, RecStatus.sent] ∧
      resumeRun.1.status = BStatus.completed) := by
  constructor
  · intro cfg sendOk sendErr sentTime rand doneTime b hrun
    have hmain : (BroadcastService.processQueue cfg sendOk sendErr sentTime rand
        (some sessConnected) doneTime b).2.1 =
        pendingIdxFrom b.recipients b.currentIndex := by
      unfold BroadcastService.processQueue
      rw [if_neg (not_not_intro hrun)]
      exact runLoop_attempts cfg sendOk sendErr sentTime rand
        (b.recipients.length - b.currentIndex)
        { b := b, messagesInBatch := 0, attempts := [], delays := [] }
        hrun (Nat.le_refl _)
    refine ⟨hmain, ?_, ?_⟩
    · rw [hmain]; exact pendingIdxFrom_nodup _ _
    · intro j; rw [hmain]; exact pendingIdxFrom_mem _ _ _
  · exact ⟨by decide, by decide, by decide, by decide, by decide, by decide⟩

/-- C8: with the default configuration, the randomized inter-message delay
`Math.floor(q * (8000 - 3000 + 1)) + 3000` lies in the inclusive interval
[3000, 8000] for every `q` in [0, 1), and it equals `v` exactly when `q`
falls in the half-open interval [(v-3000)/5001, (v-2999)/5001) — the
equal-width preimages of a uniform draw; and in a queue run over all-pending
recipients the wait after the `i`-th processed item (0-based) is the single
30000 ms inter-batch pause exactly when `i + 1` is a multiple of the batch
size 10, and otherwise the randomized delay drawn for that item. -/
theorem broadcast_rate_limiting :
    (∀ q : ℚ, 0 ≤ q → q < 1 →
      (3000 : ℤ) ≤ BroadcastService.getRandomDelay defaultBroadcastConfig q ∧
      BroadcastService.getRandomDelay defaultBroadcastConfig q ≤ 8000) ∧
    (∀ (q : ℚ) (v : ℤ), 0 ≤ q → q < 1 →
      (BroadcastService.getRandomDelay defaultBroadcastConfig q = v ↔
        ((v : ℚ) - 3000) / 5001 ≤ q ∧ q < ((v : ℚ) - 2999) / 5001)) ∧
    (∀ (sendOk : Nat → Bool) (sendErr : Nat → String) (sentTime : Nat → Nat)
        (rand : Nat → ℚ) (doneTime : Nat) (b : Broadcast),
      b.status = BStatus.running → b.currentIndex = 0 →
      (∀ r ∈ b.recipients, r.status = RecStatus.pending) →
      ((BroadcastService.processQueue defaultBroadcastConfig sendOk sendErr sentTime rand
          (some sessConnected) doneTime b).2.2.length = b.recipients.length ∧
       ∀ i : Nat, i < b.recipients.length →
         (BroadcastService.processQueue defaultBroadcastConfig sendOk sendErr sentTime rand
             (some sessConnected) doneTime b).2.2[i]? =
           some (if (i + 1) % 10 = 0 then DelayEvent.batchPause 30000
             else DelayEvent.randomDelay
               (BroadcastService.getRandomDelay defaultBroadcastConfig (rand i))))) := by
  have hX : ((defaultBroadcastConfig.maxDelay : ℚ) - (defaultBroadcastConfig.minDelay : ℚ) + 1) =
      5001 := by norm_num [defaultBroadcastConfig]
  refine ⟨?_, ?_, ?_⟩
  · intro q hq0 hq1
    unfold BroadcastService.getRandomDelay
    rw [hX]
    have h0 : (0 : ℤ) ≤ ⌊q * 5001⌋ := Int.floor_nonneg.mpr (by nlinarith)
    have h1 : ⌊q * 5001⌋ < 5001 := Int.floor_lt.mpr (by push_cast; nlinarith)
    have hmin : ((defaultBroadcastConfig.minDelay : Nat) : ℤ) = 3000 := by
      norm_num [defaultBroadcastConfig]
    rw [hmin]
    omega
  · intro q v hq0 hq1
    unfold BroadcastService.getRandomDelay
    rw [hX]
    have hmin : ((defaultBroadcastConfig.minDelay : Nat) : ℤ) = 3000 := by
      norm_num [defaultBroadcastConfig]
    rw [hmin]
    have h2 : (⌊q * 5001⌋ + 3000 = v) ↔ ⌊q * 5001⌋ = v - 3000 := by omega
    rw [h2, Int.floor_eq_iff]
    constructor
    · rintro ⟨ha, hb2⟩
      constructor
      · rw [div_le_iff₀ (by norm_num : (0:ℚ) < 5001)]
        push_cast at ha ⊢
        linarith
      · rw [lt_div_iff₀ (by norm_num : (0:ℚ) < 5001)]
        push_cast at hb2 ⊢
        linarith
    · rintro ⟨ha, hb2⟩
      rw [div_le_iff₀ (by norm_num : (0:ℚ) < 5001)] at ha
      rw [lt_div_iff₀ (by norm_num : (0:ℚ) < 5001)] at hb2
      constructor
      · push_cast at ha ⊢
        linarith
      · push_cast at hb2 ⊢
        linarith
  · intro sendOk sendErr sentTime rand doneTime b hrun hidx hall
    have hdel : (BroadcastService.processQueue defaultBroadcastConfig sendOk sendErr sentTime rand
        (some sessConnected) doneTime b).2.2 =
        rateTrace defaultBroadcastConfig rand 0 0 (b.recipients.length - b.currentIndex) := by
      unfold BroadcastService.processQueue
      rw [if_neg (not_not_intro hrun)]
      exact runLoop_delays defaultBroadcastConfig sendOk sendErr sentTime rand
        (b.recipients.length - b.currentIndex)
        { b := b, messagesInBatch := 0, attempts := [], delays := [] }
        hrun rfl (fun j hj _ => hall _ (List.get_mem b.recipients j hj))
    constructor
    · rw [hdel, rateTrace_length]
      omega
    · intro i hi
      rw [hdel]
      have hget := rateTrace_get defaultBroadcastConfig rand
        (b.recipients.length - b.currentIndex) 0 0 i (by decide) (by omega)
      rw [hget]
      have e1 : 0 + i + 1 = i + 1 := by omega
      have e2 : 0 + i = i := by omega
      rw [e1, e2]
      rfl

/-- Witness for C4 at a concrete input: the resumed five-recipient
campaign. -/
theorem broadcast_resume_sends_pending_once_witness :
    (BroadcastService.processQueue defaultBroadcastConfig (fun _ => true) (fun _ => "err")
        (fun k => 500 + k) (fun _ => 0) (some sessConnected) 999 bResumed).2.1 =
      pendingIdxFrom bResumed.recipients bResumed.currentIndex ∧
    resumeRun.2.1 = [2, 3, 4] :=
  ⟨(broadcast_resume_sends_pending_once.1 defaultBroadcastConfig (fun _ => true) (fun _ => "err")
      (fun k => 500 + k) (fun _ => 0) 999 bResumed (by decide)).1,
    broadcast_resume_sends_pending_once.2.2.2.1⟩

/-- Witness for C8 at concrete inputs: the delay bounds at q = 1/2 and the
wait-trace length of the freshly started five-recipient campaign. -/
theorem broadcast_rate_limiting_witness :
    ((3000 : ℤ) ≤ BroadcastService.getRandomDelay defaultBroadcastConfig (1/2) ∧
      BroadcastService.getRandomDelay defaultBroadcastConfig (1/2) ≤ 8000) ∧
    (BroadcastService.processQueue defaultBroadcastConfig (fun _ => true) (fun _ => "err")
        (fun k => 100 + k) (fun _ => 1/2) (some sessConnected) 999 bFiveRunning).2.2.length =
      bFiveRunning.recipients.length :=
  ⟨broadcast_rate_limiting.1 (1/2) (by norm_num) (by norm_num),
    (broadcast_rate_limiting.2.2 (fun _ => true) (fun _ => "err") (fun k => 100 + k)
      (fun _ => 1/2) 999 bFiveRunning (by decide) (by decide) (by decide)).1⟩

/-! ## Auto-reply claims C3, C6, C7 and C9 -/

/-- C9: a rule whose time-range condition is enabled with a start time (in
minutes since midnight) strictly greater than its end time — an overnight
window such as 22:00 to 06:00 — never matches at any current time of day:
the source requires `start <= now <= end`, which is unsatisfiable when
`start > end`, so the window check always short-circuits to a non-match. -/
theorem autoreply_overnight_window_never_matches
    (rc : String → String → Option (String → Bool)) (nowMinutes : Nat) (rule : Rule)
    (messageText chatId : String) (isGroup : Bool)
    (hen : rule.conditions.timeRange.enabled = true)
    (hover : rule.conditions.timeRange.endH * 60 + rule.conditions.timeRange.endM <
      rule.conditions.timeRange.startH * 60 + rule.conditions.timeRange.startM) :
    AutoReplyService.matchesRule rc nowMinutes rule messageText chatId isGroup = false := by
  unfold AutoReplyService.matchesRule
  split
  · rfl
  · split
    · rfl
    · split
      · rfl
      · rename_i h1 h2 h3
        exfalso
        apply h3
        rw [hen]
        simp only [Bool.true_and, Bool.or_eq_true, decide_eq_true_eq]
        omega

/-- Witness for C9 at a concrete input: the 22:00 to 06:00 window blocks a
match at 12:00. -/
theorem autoreply_overnight_witness :
    AutoReplyService.matchesRule rcNone 720 { ruleHigh with conditions := condOvernight }
      "hello" "628123@s.whatsapp.net" false = false :=
  autoreply_overnight_window_never_matches rcNone 720
    { ruleHigh with conditions := condOvernight } "hello" "628123@s.whatsapp.net" false
    (by decide) (by decide)

/-- C6: a regex-trigger rule whose pattern/flags pair fails to compile (the
RegExp oracle returns none, modelling the constructor throwing) evaluates to
a non-match for every message text; totality of the Lean model reflects that
the try/catch of the source lets no exception escape the matcher. -/
theorem autoreply_invalid_regex_never_matches
    (rc : String → String → Option (String → Bool)) (trigger : RuleTrigger)
    (messageText : String) (ht : trigger.type = "regex")
    (hc : rc trigger.pattern (if trigger.flags = "" then "i" else trigger.flags) = none) :
    AutoReplyService.matchesTrigger rc trigger messageText = false := by
  obtain ⟨ty, kws, mt, pat, fl⟩ := trigger
  simp only at ht hc
  subst ht
  simp only [AutoReplyService.matchesTrigger]
  rw [hc]
  simp

/-- Witness for C6 at a concrete input: the unterminated class pattern. -/
theorem autoreply_invalid_regex_witness :
    AutoReplyService.matchesTrigger rcNone trigBadRegex "anything" = false :=
  autoreply_invalid_regex_never_matches rcNone trigBadRegex "anything" (by decide) rfl

/-- C7: a keyword trigger matches a text exactly when at least one of its
keywords matches case-insensitively per `matchType` (contains as substring,
exact as whole-text equality, startsWith as prefix, endsWith as suffix); in
particular `keywords=["price"], matchType=contains` matches
"what is the price?" and not "what is the cost?". -/
theorem autoreply_keyword_matching
    (rc : String → String → Option (String → Bool)) (trigger : RuleTrigger)
    (messageText : String) (ht : trigger.type = "keyword")
    (hmt : trigger.matchType = "contains" ∨ trigger.matchType = "exact" ∨
      trigger.matchType = "startsWith" ∨ trigger.matchType = "endsWith") :
    (AutoReplyService.matchesTrigger rc trigger messageText = true ↔
      ∃ kw ∈ trigger.keywords,
        keywordMatches trigger.matchType (lowerData messageText) (lowerData kw) = true) ∧
    (AutoReplyService.matchesTrigger rcNone trigPrice "what is the price?" = true ∧
      AutoReplyService.matchesTrigger rcNone trigPrice "what is the cost?" = false) := by
  constructor
  · obtain ⟨ty, kws, mt, pat, fl⟩ := trigger
    simp only at ht hmt ⊢
    subst ht
    rcases hmt with h | h | h | h <;> subst h <;>
      simp [AutoReplyService.matchesTrigger, List.any_eq_true]
  · exact ⟨by decide, by decide⟩

/-- Witness for C7 at the concrete spec example. -/
theorem autoreply_keyword_matching_witness :
    (AutoReplyService.matchesTrigger rcNone trigPrice "what is the price?" = true ∧
      AutoReplyService.matchesTrigger rcNone trigPrice "what is the cost?" = false) :=
  (autoreply_keyword_matching rcNone trigPrice "what is the price?" (by decide)
    (Or.inl (by decide))).2

/-- Inserting a rule permutes to consing it. -/
theorem insertByPriority_perm (r : Rule) (l : List Rule) :
    List.Perm (insertByPriority r l) (r :: l) := by
  induction l with
  | nil => exact List.Perm.refl _
  | cons x xs ih =>
    rw [insertByPriority]
    split
    · exact (ih.cons x).trans (List.Perm.swap r x xs)
    · exact List.Perm.refl _

/-- The priority sort is a permutation. -/
theorem sortByPriorityDesc_perm (l : List Rule) :
    List.Perm (sortByPriorityDesc l) l := by
  have main : ∀ (l acc : List Rule),
      List.Perm (l.foldl (fun acc r => insertByPriority r acc) acc) (acc ++ l) := by
    intro l
    induction l with
    | nil => intro acc; simp
    | cons x xs ih =>
      intro acc
      have h1 := ih (insertByPriority x acc)
      have h2 : List.Perm (insertByPriority x acc ++ xs) ((x :: acc) ++ xs) :=
        (insertByPriority_perm x acc).append_right xs
      have h3 : List.Perm ((x :: acc) ++ xs) (acc ++ x :: xs) := by
        simpa using (List.perm_middle).symm
      exact (h1.trans h2).trans h3
  simpa using main l []

/-- Insertion preserves priority-descending sortedness. -/
theorem insertByPriority_pairwise (r : Rule) (l : List Rule)
    (h : l.Pairwise ruleGE) : (insertByPriority r l).Pairwise ruleGE := by
  induction l with
  | nil => simp [insertByPriority, List.Pairwise]
  | cons x xs ih =>
    rw [insertByPriority]
    rw [List.pairwise_cons] at h
    obtain ⟨hx, hxs⟩ := h
    split
    · rename_i hle
      rw [List.pairwise_cons]
      refine ⟨?_, ih hxs⟩
      intro y hy
      have hmem : y ∈ r :: xs := (insertByPriority_perm r xs).mem_iff.mp hy
      rcases List.mem_cons.mp hmem with h | h
      · subst h; exact hle
      · exact hx y h
    · rename_i hgt
      rw [List.pairwise_cons]
      refine ⟨?_, ?_⟩
      · intro y hy
        have h2 : ¬r.priority ≤ x.priority := hgt
        rcases List.mem_cons.mp hy with h | h
        · subst h
          unfold ruleGE
          omega
        · have h3 := hx y h
          unfold ruleGE at h3 ⊢
          omega
      · rw [List.pairwise_cons]
        exact ⟨hx, hxs⟩

/-- The sorted applicable rules are priority-descending. -/
theorem sortByPriorityDesc_pairwise (l : List Rule) :
    (sortByPriorityDesc l).Pairwise ruleGE := by
  have main : ∀ (l acc : List Rule), acc.Pairwise ruleGE →
      (l.foldl (fun acc r => insertByPriority r acc) acc).Pairwise ruleGE := by
    intro l
    induction l with
    | nil => intro acc hacc; exact hacc
    | cons x xs ih =>
      intro acc hacc
      exact ih _ (insertByPriority_pairwise x acc hacc)
  exact main l [] List.Pairwise.nil

/-- A successful find? splits the list at the first satisfying element. -/
theorem find?_eq_some_split {α : Type} (p : α → Bool) (l : List α) (a : α)
    (h : l.find? p = some a) :
    p a = true ∧ ∃ l1 l2, l = l1 ++ a :: l2 ∧ ∀ x ∈ l1, p x = false := by
  induction l with
  | nil => cases h
  | cons x xs ih =>
    cases hx : p x with
    | true =>
      rw [List.find?_cons_of_pos _ hx] at h
      injection h with h
      subst h
      exact ⟨hx, [], xs, rfl, by simp⟩
    | false =>
      rw [List.find?_cons_of_neg _ (by simp [hx])] at h
      obtain ⟨hp, l1, l2, rfl, hall⟩ := ih h
      refine ⟨hp, x :: l1, l2, rfl, ?_⟩
      intro y hy
      rcases List.mem_cons.mp hy with h2 | h2
      · subst h2; exact hx
      · exact hall y h2

/-- `processMessage` on a non-self, non-status message with extractable text
reduces to the first-match search over the applicable rules. -/
theorem processMessage_eq_of (rc : String → String → Option (String → Bool))
    (nowMinutes : Nat) (timeStr dateStr sessionId : String) (rules : List Rule)
    (m : WAMessage) (text : String)
    (hskip : (m.fromMe || decide (m.remoteJid = "status@broadcast")) = false)
    (hext : AutoReplyService.extractMessageText m = some text) :
    AutoReplyService.processMessage rc nowMinutes timeStr dateStr sessionId rules m =
      match (AutoReplyService.applicableRules rules sessionId).find? (fun r =>
          AutoReplyService.matchesRule rc nowMinutes r text m.remoteJid
            (strEndsWith m.remoteJid "@g.us")) with
      | none => none
      | some rule => some (mkReplyAction rule m timeStr dateStr) := by
  unfold AutoReplyService.processMessage
  rw [if_neg (by simp [hskip]), hext]

/-- C3 (amended): `processMessage` considers exactly the enabled rules whose
`sessionId` is empty/absent, equal to the inbound session, or the wildcard
(the source filter `!rule.sessionId || rule.sessionId === sessionId ||
rule.sessionId === "*"` also admits a falsy session id, which the original
claim omitted); it evaluates them in priority-descending order, and a
returned action is the action of the first rule in that order whose
conditions and trigger pass, with every earlier rule in the evaluation
order failing; in particular, for two applicable enabled rules with
priorities 10 and 5 both matching the text, the priority-10 action is
returned whichever order the rules are stored in. -/
theorem autoreply_first_match_by_priority :
    (∀ (rules : List Rule) (sessionId : String),
      (AutoReplyService.applicableRules rules sessionId).Pairwise ruleGE ∧
      (∀ r : Rule, r ∈ AutoReplyService.applicableRules rules sessionId ↔
        r ∈ rules ∧ r.enabled = true ∧
          (r.sessionId = "" ∨ r.sessionId = sessionId ∨ r.sessionId = "*"))) ∧
    (∀ (rc : String → String → Option (String → Bool)) (nowMinutes : Nat)
        (timeStr dateStr sessionId : String) (rules : List Rule) (m : WAMessage)
        (a : ReplyAction),
      AutoReplyService.processMessage rc nowMinutes timeStr dateStr sessionId rules m = some a →
      ∃ (text : String) (rule : Rule) (l1 l2 : List Rule),
        AutoReplyService.extractMessageText m = some text ∧
        AutoReplyService.applicableRules rules sessionId = l1 ++ rule :: l2 ∧
        AutoReplyService.matchesRule rc nowMinutes rule text m.remoteJid
          (strEndsWith m.remoteJid "@g.us") = true ∧
        (∀ r2 ∈ l1, AutoReplyService.matchesRule rc nowMinutes r2 text m.remoteJid
          (strEndsWith m.remoteJid "@g.us") = false) ∧
        a = mkReplyAction rule m timeStr dateStr) ∧
    (∀ (rc : String → String → Option (String → Bool)) (nowMinutes : Nat)
        (timeStr dateStr sessionId : String) (m : WAMessage) (r1 r2 : Rule) (text : String),
      m.fromMe = false → m.remoteJid ≠ "status@broadcast" →
      AutoReplyService.extractMessageText m = some text →
      r1.enabled = true → r2.enabled = true →
      r1.sessionId = "*" → r2.sessionId = "*" →
      r1.priority = 10 → r2.priority = 5 →
      AutoReplyService.matchesRule rc nowMinutes r1 text m.remoteJid
        (strEndsWith m.remoteJid "@g.us") = true →
      AutoReplyService.matchesRule rc nowMinutes r2 text m.remoteJid
        (strEndsWith m.remoteJid "@g.us") = true →
      AutoReplyService.processMessage rc nowMinutes timeStr dateStr sessionId [r2, r1] m =
        some (mkReplyAction r1 m timeStr dateStr) ∧
      AutoReplyService.processMessage rc nowMinutes timeStr dateStr sessionId [r1, r2] m =
        some (mkReplyAction r1 m timeStr dateStr)) := by
  refine ⟨?_, ?_, ?_⟩
  · intro rules sessionId
    constructor
    · exact sortByPriorityDesc_pairwise _
    · intro r
      unfold AutoReplyService.applicableRules
      rw [(sortByPriorityDesc_perm _).mem_iff, List.mem_filter, List.mem_filter]
      constructor
      · rintro ⟨⟨hmem, hen⟩, hses⟩
        refine ⟨hmem, hen, ?_⟩
        have := hses
        simp only [Bool.or_eq_true, decide_eq_true_eq] at this
        tauto
      · rintro ⟨hmem, hen, hses⟩
        refine ⟨⟨hmem, hen⟩, ?_⟩
        simp only [Bool.or_eq_true, decide_eq_true_eq]
        tauto
  · intro rc nowMinutes timeStr dateStr sessionId rules m a h
    by_cases hskip : (m.fromMe || decide (m.remoteJid = "status@broadcast")) = true
    · unfold AutoReplyService.processMessage at h
      rw [if_pos hskip] at h
      cases h
    · have hskip2 : (m.fromMe || decide (m.remoteJid = "status@broadcast")) = false :=
        Bool.eq_false_iff.mpr hskip
      cases hext : AutoReplyService.extractMessageText m with
      | none =>
        unfold AutoReplyService.processMessage at h
        rw [if_neg (by simp [hskip2]), hext] at h
        simp at h
      | some text =>
        rw [processMessage_eq_of rc nowMinutes timeStr dateStr sessionId rules m text
          hskip2 hext] at h
        cases hfind : (AutoReplyService.applicableRules rules sessionId).find? (fun r =>
            AutoReplyService.matchesRule rc nowMinutes r text m.remoteJid
              (strEndsWith m.remoteJid "@g.us")) with
        | none =>
          rw [hfind] at h
          simp at h
        | some rule =>
          rw [hfind] at h
          have h2 : some (mkReplyAction rule m timeStr dateStr) = some a := h
          injection h2 with h2
          obtain ⟨hp, l1, l2, heq, hall⟩ := find?_eq_some_split _ _ _ hfind
          exact ⟨text, rule, l1, l2, rfl, heq, hp, hall, h2.symm⟩
  · intro rc nowMinutes timeStr dateStr sessionId m r1 r2 text hfm hjid hext he1 he2
      hs1 hs2 hp1 hp2 hm1 hm2
    have hskip2 : (m.fromMe || decide (m.remoteJid = "status@broadcast")) = false := by
      simp [hfm, hjid]
    have hfilter1 : AutoReplyService.applicableRules [r2, r1] sessionId = [r1, r2] := by
      unfold AutoReplyService.applicableRules
      rw [show ([r2, r1].filter fun r => r.enabled) = [r2, r1] by
        simp [List.filter_cons, he1, he2]]
      rw [show ([r2, r1].filter fun r =>
          r.sessionId = "" || r.sessionId = sessionId || r.sessionId = "*") = [r2, r1] by
        simp [List.filter_cons, hs1, hs2]]
      unfold sortByPriorityDesc
      show insertByPriority r1 (insertByPriority r2 []) = [r1, r2]
      rw [show insertByPriority r2 [] = [r2] from rfl, insertByPriority, hp1, hp2]
      norm_num [insertByPriority]
    have hfilter2 : AutoReplyService.applicableRules [r1, r2] sessionId = [r1, r2] := by
      unfold AutoReplyService.applicableRules
      rw [show ([r1, r2].filter fun r => r.enabled) = [r1, r2] by
        simp [List.filter_cons, he1, he2]]
      rw [show ([r1, r2].filter fun r =>
          r.sessionId = "" || r.sessionId = sessionId || r.sessionId = "*") = [r1, r2] by
        simp [List.filter_cons, hs1, hs2]]
      unfold sortByPriorityDesc
      show insertByPriority r2 (insertByPriority r1 []) = [r1, r2]
      rw [show insertByPriority r1 [] = [r1] from rfl, insertByPriority, hp1, hp2]
      norm_num [insertByPriority]
    have hfind1 : List.find? (fun r => AutoReplyService.matchesRule rc nowMinutes r text
        m.remoteJid (strEndsWith m.remoteJid "@g.us")) [r1, r2] = some r1 := by
      simp only [List.find?, hm1]
    constructor
    · rw [processMessage_eq_of rc nowMinutes timeStr dateStr sessionId [r2, r1] m text
        hskip2 hext, hfilter1, hfind1]
    · rw [processMessage_eq_of rc nowMinutes timeStr dateStr sessionId [r1, r2] m text
        hskip2 hext, hfilter2, hfind1]

/-- Counterexample to C3 as stated: an enabled rule whose `sessionId` is the
empty string — neither the wildcard nor the inbound session "session1" — is
nevertheless considered and fires, because the source filter also accepts a
falsy session id. -/
theorem autoreply_sessionid_filter_counterexample :
    ruleEmptySession.enabled = true ∧
    ruleEmptySession.sessionId ≠ "*" ∧
    ruleEmptySession.sessionId ≠ "session1" ∧
    (AutoReplyService.processMessage rcNone 720 "10:00" "01-01-2025" "session1"
      [ruleEmptySession] msgHello).isSome = true := by
  decide

/-- Witness for C3 (amended) at a concrete input: the stored order
[low priority, high priority] still returns the priority-10 action. -/
theorem autoreply_first_match_by_priority_witness :
    AutoReplyService.processMessage rcNone 720 "10:00" "01-01-2025" "session1"
      [ruleLow, ruleHigh] msgHello =
      some (mkReplyAction ruleHigh msgHello "10:00" "01-01-2025") :=
  (autoreply_first_match_by_priority.2.2 rcNone 720 "10:00" "01-01-2025" "session1"
    msgHello ruleHigh ruleLow "hello" (by decide) (by decide) (by decide) (by decide)
    (by decide) (by decide) (by decide) (by decide) (by decide) (by decide) (by decide)).1
